import Mathlib

/-
Verification of the client of the youtube-video-downloader repository.

The TypeScript sources under src/ (services/api.ts, components/VideoInfoCard.tsx,
components/DownloadProgress.tsx, app/page.tsx) are shallowly embedded below:
JavaScript numbers carried by format records are modelled as Nat (heights,
widths, fps, sizes) and Rat (bitrates), optional fields as Option, and
JavaScript truthiness of a numeric field as "present and nonzero", of a string
field as "present and nonempty".  Functions that throw are modelled as
Except-valued functions.
-/

/- JavaScript helpers: `a || b` on optional numbers and strings
   (undefined and 0 resp. "" are falsy). -/

def jsOrNat (o : Option Nat) (d : Nat) : Nat :=
  match o with
  | some n => if n = 0 then d else n
  | none => d

def jsOrRat (o : Option Rat) (d : Rat) : Rat :=
  match o with
  | some x => if x = 0 then d else x
  | none => d

def jsOrStr (o : Option String) (d : String) : String :=
  match o with
  | some s => if s = "" then d else s
  | none => d

/- Template-literal rendering of a possibly-undefined number. -/
def jsNumStr (o : Option Nat) : String :=
  match o with
  | some n => toString n
  | none => "undefined"

/- Data model: the format records of VideoInfoCard.tsx (interfaces
   VideoFormat, AudioFormat, VideoInfo). -/

structure VideoFormat where
  format_id : String
  width : Option Nat := none
  height : Option Nat := none
  fps : Option Nat := none
  vcodec : Option String := none
  filesize : Option Nat := none
  tbr : Option Rat := none
deriving Repr, DecidableEq

structure AudioFormat where
  format_id : String
  acodec : Option String := none
  abr : Option Rat := none
  filesize : Option Nat := none
  tbr : Option Rat := none
  language : Option String := none
  language_preference : Option Int := none
deriving Repr, DecidableEq

structure Formats where
  video_formats : List VideoFormat
  audio_formats : List AudioFormat
  recommended_video : String
  recommended_audio : String
deriving Repr, DecidableEq

structure VideoInfo where
  title : String
  duration : Nat
  uploader : String
  thumbnail : String
  description : String
  view_count : Nat
  upload_date : String
  formats : Formats
deriving Repr, DecidableEq

/- Field projections with the JavaScript `|| 0` defaulting used by the
   comparators of VideoInfoCard.tsx. -/

def vHeight (f : VideoFormat) : Nat := f.height.getD 0

def vWidth (f : VideoFormat) : Nat := f.width.getD 0

def vTbr (f : VideoFormat) : Rat := f.tbr.getD 0

def aAbr (f : AudioFormat) : Rat := f.abr.getD 0

/- `a.abr || a.tbr || 0` from the sortedAudioFormats comparator. -/
def aBitrate (f : AudioFormat) : Rat := jsOrRat f.abr (jsOrRat f.tbr 0)

def aLangPref (f : AudioFormat) : Int := f.language_preference.getD 0

/- Descending lexicographic order induced by a JavaScript sort comparator
   of the form `(a, b) => key(b) - key(a) , then tie(b) - tie(a)`.
   `lexDesc key tie a b` holds when the comparator orders `a` no later
   than `b`. -/
def lexDesc {α β γ : Type} [LinearOrder β] [LinearOrder γ]
    (key : α → β) (tie : α → γ) (a b : α) : Prop :=
  key b < key a ∨ (key a = key b ∧ tie b ≤ tie a)

/- Descending order by a single key: `(a, b) => key(b) - key(a)`. -/
def descBy {α β : Type} [LinearOrder β] (key : α → β) (a b : α) : Prop :=
  key b ≤ key a

instance {α β γ : Type} [LinearOrder β] [LinearOrder γ]
    (key : α → β) (tie : α → γ) : DecidableRel (lexDesc key tie) := by
  intro a b
  unfold lexDesc
  exact inferInstance

instance {α β : Type} [LinearOrder β] (key : α → β) :
    DecidableRel (descBy key) := by
  intro a b
  unfold descBy
  exact inferInstance

instance {α β γ : Type} [LinearOrder β] [LinearOrder γ]
    (key : α → β) (tie : α → γ) : IsTotal α (lexDesc key tie) :=
  ⟨fun a b => by
    rcases lt_trichotomy (key a) (key b) with h | h | h
    · exact Or.inr (Or.inl h)
    · rcases le_total (tie a) (tie b) with hg | hg
      · exact Or.inr (Or.inr ⟨h.symm, hg⟩)
      · exact Or.inl (Or.inr ⟨h, hg⟩)
    · exact Or.inl (Or.inl h)⟩

instance {α β γ : Type} [LinearOrder β] [LinearOrder γ]
    (key : α → β) (tie : α → γ) : IsTrans α (lexDesc key tie) :=
  ⟨fun a b c hab hbc => by
    rcases hab with h1 | ⟨h1, t1⟩
    · rcases hbc with h2 | ⟨h2, _⟩
      · exact Or.inl (h2.trans h1)
      · exact Or.inl (h2 ▸ h1)
    · rcases hbc with h2 | ⟨h2, t2⟩
      · exact Or.inl (h1 ▸ h2)
      · exact Or.inr ⟨h1.trans h2, t2.trans t1⟩⟩

instance {α β : Type} [LinearOrder β] (key : α → β) :
    IsTotal α (descBy key) :=
  ⟨fun a b => le_total (key b) (key a)⟩

instance {α β : Type} [LinearOrder β] (key : α → β) :
    IsTrans α (descBy key) :=
  ⟨fun _ _ _ h1 h2 => le_trans h2 h1⟩

/- VideoInfoCard.tsx lines 170-179: keep only formats whose height and width
   are truthy, then sort by height descending and bitrate descending.
   JavaScript Array.prototype.sort with a consistent comparator is a stable
   sort, embedded here as insertion sort under the comparator order. -/

def videoHasDims (f : VideoFormat) : Bool :=
  vHeight f != 0 && vWidth f != 0

def sortedVideoFormats (vi : VideoInfo) : List VideoFormat :=
  List.insertionSort (lexDesc vHeight vTbr)
    (vi.formats.video_formats.filter videoHasDims)

/- VideoInfoCard.tsx lines 181-192: keep only formats whose acodec is truthy
   and not "none", then sort by bitrate (abr || tbr || 0) descending and
   language_preference descending. -/

def audioHasCodec (f : AudioFormat) : Bool :=
  match f.acodec with
  | some c => c != "" && c != "none"
  | none => false

def sortedAudioFormats (vi : VideoInfo) : List AudioFormat :=
  List.insertionSort (lexDesc aBitrate aLangPref)
    (vi.formats.audio_formats.filter audioHasCodec)

/- VideoInfoCard.tsx lines 120-126 (getQualityLabel). -/
def getQualityLabel (f : VideoFormat) : String :=
  if vHeight f ≠ 0 then
    toString (vHeight f) ++ "p" ++
      (if (f.fps.getD 0) ≠ 0 then "@" ++ toString (f.fps.getD 0) ++ "fps" else "")
  else
    jsNumStr f.width ++ "x" ++ "auto"

/- VideoInfoCard.tsx lines 128-154 (getLanguageDisplay): the language table
   and fallback display. -/
def languageInfo (k : String) : Option (String × String) :=
  if k = "en" then some ("English", "🇺🇸")
  else if k = "en-US" then some ("English (US)", "🇺🇸")
  else if k = "en-GB" then some ("English (UK)", "🇬🇧")
  else if k = "es" then some ("Spanish", "🇪🇸")
  else if k = "fr" then some ("French", "🇫🇷")
  else if k = "de" then some ("German", "🇩🇪")
  else if k = "it" then some ("Italian", "🇮🇹")
  else if k = "pt" then some ("Portuguese", "🇵🇹")
  else if k = "ru" then some ("Russian", "🇷🇺")
  else if k = "ja" then some ("Japanese", "🇯🇵")
  else if k = "ko" then some ("Korean", "🇰🇷")
  else if k = "zh" then some ("Chinese", "🇨🇳")
  else if k = "hi" then some ("Hindi", "🇮🇳")
  else if k = "ar" then some ("Arabic", "🇸🇦")
  else none

/- `language.split("-")[0]` -/
def langHead (l : String) : String :=
  String.mk (l.data.takeWhile (fun c => c != Char.ofNat 45))

def getLanguageDisplay (f : AudioFormat) : String :=
  match f.language with
  | some l =>
    if l = "" then "🌐 Default"
    else
      match languageInfo l with
      | some p => p.2 ++ " " ++ p.1
      | none =>
        match languageInfo (langHead l) with
        | some p => p.2 ++ " " ++ p.1
        | none => l.toUpper
  | none => "🌐 Default"

/- VideoInfoCard.tsx lines 195-202: groupedVideoFormats groups the members of
   sortedVideoFormats by quality label, preserving order.  The reduce builds,
   for each label, exactly the order-preserving sublist of sortedVideoFormats
   carrying that label, which is what this filter computes. -/
def groupedVideoFormats (vi : VideoInfo) (quality : String) : List VideoFormat :=
  (sortedVideoFormats vi).filter (fun f => getQualityLabel f == quality)

/- VideoInfoCard.tsx lines 205-212: groupedAudioFormats groups the members of
   sortedAudioFormats by language display, preserving order. -/
def groupedAudioFormats (vi : VideoInfo) (language : String) : List AudioFormat :=
  (sortedAudioFormats vi).filter (fun f => getLanguageDisplay f == language)

/- VideoInfoCard.tsx lines 1141-1155 (the per-language audio grouping of the
   second component version): group all audio formats by `language || "unknown"`
   and sort each group in place by `(b.abr || 0) - (a.abr || 0)`. -/

def langKey (f : AudioFormat) : String :=
  match f.language with
  | some l => if l = "" then "unknown" else l
  | none => "unknown"

def groupedAudioFormatsByLanguage (vi : VideoInfo) (language : String) :
    List AudioFormat :=
  List.insertionSort (descBy aAbr)
    (vi.formats.audio_formats.filter (fun f => langKey f == language))

/- Concrete catalog used by the witness of the filtering claim. -/

def c8vf : VideoFormat := { format_id := "137", width := some 1920, height := some 1080 }

def c8af : AudioFormat := { format_id := "140", acodec := some "mp4a.40.2" }

def c8vi : VideoInfo :=
  { title := "t", duration := 10, uploader := "u", thumbnail := "",
    description := "", view_count := 0, upload_date := "20240101",
    formats :=
      { video_formats := [c8vf], audio_formats := [c8af],
        recommended_video := "137", recommended_audio := "140" } }

/- VideoInfoCard.tsx lines 113-118 (formatFileSize).  The unit index
   Math.floor(Math.log(bytes) / Math.log(1024)) equals Nat.log 1024 bytes for
   bytes >= 1 under exact real semantics; toFixed(1) is modelled by exact
   rational rounding to one decimal place. -/

def sizes : List String := ["B", "KB", "MB", "GB"]

def toFixed1 (q : Rat) : String :=
  let n : Nat := (Rat.floor (q * 10 + 1 / 2)).toNat
  toString (n / 10) ++ "." ++ toString (n % 10)

def formatFileSize (bytes : Option Nat) : String :=
  match bytes with
  | none => "Unknown"
  | some b =>
    if b = 0 then "Unknown"
    else
      toFixed1 ((b : Rat) / (1024 : Rat) ^ Nat.log 1024 b) ++ " " ++
        ((sizes.get? (Nat.log 1024 b)).getD "undefined")

/- app/page.tsx lines 113-158: the downloadTasks record created by
   startDirectDownload and the two status updates applied to it. -/

structure PageTask where
  task_id : String
  status : String
  message : String
deriving Repr, DecidableEq

/- page.tsx lines 114-118: the temporary task created in status "preparing". -/
def createdDirectTask (downloadId title : String) : PageTask :=
  { task_id := downloadId, status := "preparing",
    message := "Preparing download: " ++ title }

/- page.tsx lines 130-140 and 146-158: setDownloadTasks maps every task whose
   task_id matches to the new status and message. -/
def markTasks (downloadId newStatus newMessage : String)
    (tasks : List PageTask) : List PageTask :=
  tasks.map (fun t =>
    if t.task_id = downloadId then
      { t with status := newStatus, message := newMessage }
    else t)

def headStatus (tasks : List PageTask) : Option String :=
  tasks.head?.map PageTask.status

/- The successive downloadTasks snapshots produced by startDirectDownload; the
   created task is prepended, hence sits at the head of every snapshot, and its
   observed statuses are the head statuses of the snapshots. -/
def directDownloadSnapshots (downloadId title : String) (prev : List PageTask) :
    List (List PageTask) :=
  let t0 := createdDirectTask downloadId title :: prev
  let t1 := markTasks downloadId "downloading" "Downloading to your device..." t0
  let t2 := markTasks downloadId "completed" ("Download started: " ++ title) t1
  [t0, t1, t2]

def directDownloadStatusTrace (downloadId title : String)
    (prev : List PageTask) : List String :=
  (directDownloadSnapshots downloadId title prev).filterMap headStatus

/- components/DownloadProgress.tsx: the task projection shown to the user and
   the polling step (lines 127-159). -/

structure DPTask where
  task_id : Option String := none
  download_id : Option String := none
  status : String
  message : String := ""
  error : Option String := none
  downloaded_files : Option (List String) := none
deriving Repr, DecidableEq

structure PollState where
  currentTask : DPTask
  isPolling : Bool
  downloadFiles : List String
deriving Repr, DecidableEq

/- `a || b` on two optional strings. -/
def jsOrOptStr (a b : Option String) : Option String :=
  match a with
  | some s => if s = "" then b else some s
  | none => b

def terminalStatus (s : String) : Bool := s == "completed" || s == "error"

/- DownloadProgress.tsx lines 128-155: one tick of pollStatus.  `fetched` is
   the outcome of api.getDownloadStatus; the Bool records whether the tick
   performed that fetch at all.  The early returns (not polling, terminal
   status, missing task id) fetch nothing and leave the state untouched. -/
def pollStatus (task : DPTask) (s : PollState)
    (fetched : Except String DPTask) : PollState × Bool :=
  if !s.isPolling || terminalStatus s.currentTask.status then (s, false)
  else
    match jsOrOptStr task.task_id task.download_id with
    | none => (s, false)
    | some tid =>
      if tid = "" then (s, false)
      else
        match fetched with
        | Except.error _ => ({ s with isPolling := false }, true)
        | Except.ok data =>
          ({ currentTask := data,
             downloadFiles :=
               match data.downloaded_files with
               | some fs => fs
               | none => s.downloadFiles,
             isPolling := if terminalStatus data.status then false else s.isPolling },
           true)

/- services/api.ts: the error-handling paths of getVideoInfo (lines 92-142)
   and startDirectDownload (lines 144-175).  A response is modelled by its
   HTTP status and the parsed JSON error body; fetch "response.ok" is status
   in [200, 300). -/

def API_BASE_URL : String := "http://localhost:5000"

structure ApiErrorBody where
  type : Option String := none
  message : Option String := none
  error : Option String := none
  retry_after : Option Nat := none
  suggestions : Option (List String) := none
  has_cookies : Bool := false
deriving Repr, DecidableEq

structure ApiResponse where
  status : Nat
  body : ApiErrorBody
deriving Repr, DecidableEq

def responseOk (status : Nat) : Bool := 200 ≤ status && status < 300

/- Template-literal rendering of a possibly-undefined string. -/
def jsStrTL (o : Option String) : String := o.getD "undefined"

/- `error.suggestions?.join(", ")` rendered in a template literal. -/
def jsJoin (o : Option (List String)) : String :=
  match o with
  | some l => String.intercalate ", " l
  | none => "undefined"

/- `Math.ceil((error.retry_after || 300) / 60)` -/
def retryMinutes (retry_after : Option Nat) : Nat :=
  (jsOrNat retry_after 300 + 59) / 60

def throttleMessage (retry_after : Option Nat) : String :=
  "YouTube is temporarily blocking requests. Please wait " ++
    toString (retryMinutes retry_after) ++ " minutes and try again."

/- api.ts lines 101-138: the message thrown by getVideoInfo on a non-ok
   response. -/
def getVideoInfoErrorMessage (status : Nat) (e : ApiErrorBody) : String :=
  if e.type == some "extraction_failure" then
    jsStrTL e.message ++ " Suggestions: " ++ jsJoin e.suggestions
  else if status == 429 && e.type == some "bot_detection" then
    if !e.has_cookies then
      "YouTube bot detection triggered. Cookie authentication is required. Please check the deployment guide for cookie setup instructions."
    else
      "YouTube bot detection triggered. Your cookies may be expired. Please refresh them and redeploy."
  else if e.type == some "video_unavailable" then
    jsStrTL e.message ++ " " ++ jsJoin e.suggestions
  else if e.type == some "age_restricted" then
    jsStrTL e.message ++ " " ++ jsJoin e.suggestions
  else if status == 429 then
    throttleMessage e.retry_after
  else
    jsOrStr e.error (jsOrStr e.message "Failed to fetch video info")

def getVideoInfo (resp : ApiResponse) (payload : VideoInfo) :
    Except String VideoInfo :=
  if responseOk resp.status then Except.ok payload
  else Except.error (getVideoInfoErrorMessage resp.status resp.body)

/- The response of the download-direct preparation endpoint:
   {download_id, title, safe_title, file_extension}. -/
structure DirectPrepResponse where
  download_id : String
  title : String
  safe_title : String
  file_extension : Option String := none
deriving Repr, DecidableEq

/- The JSON body `{url, quality}` posted by api.startDirectDownload. -/
structure DirectPrepRequest where
  url : String
  quality : String
deriving Repr, DecidableEq

/- api.ts lines 145-151: the endpoint and body of the preparation request. -/
def apiStartDirectDownloadRequest (url : String) (quality : String := "auto") :
    String × DirectPrepRequest :=
  (API_BASE_URL ++ "/api/download-direct", { url := url, quality := quality })

/- api.ts lines 153-171: the message thrown by startDirectDownload on a
   non-ok response. -/
def startDirectDownloadErrorMessage (status : Nat) (e : ApiErrorBody) : String :=
  if e.type == some "extraction_failure" then
    jsStrTL e.message ++ " Please try a different video."
  else if status == 429 && e.type == some "bot_detection" then
    "YouTube bot detection triggered. Please check cookie configuration in your deployment settings."
  else if status == 429 then
    throttleMessage e.retry_after
  else
    jsOrStr e.error (jsOrStr e.message "Failed to start download")

def apiStartDirectDownload (resp : ApiResponse) (payload : DirectPrepResponse) :
    Except String DirectPrepResponse :=
  if responseOk resp.status then Except.ok payload
  else Except.error (startDirectDownloadErrorMessage resp.status resp.body)

/- VideoInfoCard.tsx lines 2622-2692: the Home startDirectDownload flow —
   quality selection, preparation request, and streaming-link construction. -/

def homeDirectQuality (sel : Option VideoFormat) : String :=
  match sel with
  | some f =>
    if vHeight f ≠ 0 then "best[height<=" ++ toString (vHeight f) ++ "]"
    else "auto"
  | none => "auto"

def homeStartDirectDownloadRequest (url : String) (sel : Option VideoFormat) :
    String × DirectPrepRequest :=
  apiStartDirectDownloadRequest url (homeDirectQuality sel)

/- api.ts lines 236-238 (getDirectDownloadUrl). -/
def getDirectDownloadUrl (downloadId : String) : String :=
  API_BASE_URL ++ "/api/download-stream/" ++ downloadId

/- VideoInfoCard.tsx lines 2651-2653: the anchor used to start streaming. -/
def homeDirectLinkHref (d : DirectPrepResponse) : String :=
  getDirectDownloadUrl d.download_id

def homeDirectLinkFilename (d : DirectPrepResponse) : String :=
  d.safe_title ++ ".mp4"

/- VideoInfoCard.tsx lines 2726-2731: the custom flow picks
   `file_extension || (audio-only ? ".mp3" : ".mp4")`. -/
def customLinkExtension (d : DirectPrepResponse) (selV : Option VideoFormat)
    (selA : Option AudioFormat) : String :=
  jsOrStr d.file_extension
    (match selA, selV with
     | some _, none => ".mp3"
     | _, _ => ".mp4")

def customLinkFilename (d : DirectPrepResponse) (selV : Option VideoFormat)
    (selA : Option AudioFormat) : String :=
  d.safe_title ++ customLinkExtension d selV selA

/- Concrete 720p format used by the witness of the request-shape claim. -/
def c7vf : VideoFormat := { format_id := "136", width := some 1280, height := some 720 }

/- The custom-format download path (VideoInfoCard.tsx lines 2694-2714). -/

/- The JSON body `{url, video_format_id?, audio_format_id?}` accepted by the
   download-direct preparation endpoint. -/
structure CustomDownloadRequest where
  url : String
  video_format_id : Option String
  audio_format_id : Option String
deriving Repr, DecidableEq

/-- Modelled from the spec: the service method api.startCustomFormatDownload is
not under src/ — only its caller at VideoInfoCard.tsx lines 2710-2714 is.  Per
spec section 6 the preparation endpoint accepts
POST /api/download-direct {url, quality | video_format_id?, audio_format_id?},
so the method posts the url together with the two optional format identifiers
it receives to /api/download-direct. -/
def apiStartCustomFormatDownloadRequest (url : String)
    (videoId audioId : Option String) : String × CustomDownloadRequest :=
  (API_BASE_URL ++ "/api/download-direct",
   { url := url, video_format_id := videoId, audio_format_id := audioId })

/- VideoInfoCard.tsx lines 2694-2714: startCustomFormatDownload validates the
   url and that at least one format is selected, then sends the selected
   format identifiers. -/
def jsTrim (s : String) : String :=
  String.mk ((s.data.dropWhile Char.isWhitespace).reverse.dropWhile
    Char.isWhitespace).reverse

def startCustomFormatDownload (url : String) (selV : Option VideoFormat)
    (selA : Option AudioFormat) : Except String (String × CustomDownloadRequest) :=
  if jsTrim url = "" then Except.error "Please enter a YouTube URL"
  else
    match selV, selA with
    | none, none =>
      Except.error "Please select at least one format (video or audio)"
    | _, _ =>
      Except.ok (apiStartCustomFormatDownloadRequest url
        (selV.map VideoFormat.format_id) (selA.map AudioFormat.format_id))

/-- Modelled from the spec: an output file of the Download Worker, identified
by the encoded streams its container holds. -/
structure OutputFile where
  streams : List String
deriving Repr, DecidableEq

structure WorkerTask where
  status : String
  files : List OutputFile
deriving Repr, DecidableEq

/-- Modelled from the spec: the backend Download Worker is not under src/.
Per spec section 4.3, when both a video and an audio variant are selected and
they are distinct streams the Worker fetches both and muxes them into a single
output container; with one selected it streams that single variant; with
neither it fetches the engine-chosen best combined stream.  The modelled run
is the section 8 round-trip run, in which the transfers succeed and the task
completes. -/
def runWorker (videoId audioId : Option String) : WorkerTask :=
  match videoId, audioId with
  | some v, some a =>
    if v ≠ a then { status := "completed", files := [{ streams := [v, a] }] }
    else { status := "completed", files := [{ streams := [v] }] }
  | some v, none => { status := "completed", files := [{ streams := [v] }] }
  | none, some a => { status := "completed", files := [{ streams := [a] }] }
  | none, none => { status := "completed", files := [{ streams := ["best"] }] }

/- api.ts lines 232-234 (getDownloadFileUrl): the staged-file URL is the fixed
   path joined with encodeURIComponent(filename).  encodeURIComponent leaves
   the unreserved characters A-Z a-z 0-9 - _ . ! ~ * ( ) and the apostrophe
   unescaped and percent-encodes every UTF-8 byte of every other character
   with uppercase hexadecimal digits. -/

def isUnreservedByte (b : Nat) : Bool :=
  (48 ≤ b && b ≤ 57) || (65 ≤ b && b ≤ 90) || (97 ≤ b && b ≤ 122) ||
  b == 45 || b == 46 || b == 95 || b == 126 || b == 33 || b == 42 ||
  b == 39 || b == 40 || b == 41

def hexDigit (n : Nat) : Char :=
  Char.ofNat (if n < 10 then 48 + n else 55 + n)

def percentEncodeByte (b : Nat) : List Char :=
  if isUnreservedByte b then [Char.ofNat b]
  else ['%', hexDigit (b / 16), hexDigit (b % 16)]

def percentEncodeBytes : List Nat → List Char
  | [] => []
  | b :: bs => percentEncodeByte b ++ percentEncodeBytes bs

/- The UTF-8 encoding of a Unicode scalar value. -/
def utf8EncodeNat (n : Nat) : List Nat :=
  if n < 128 then [n]
  else if n < 2048 then [192 + n / 64, 128 + n % 64]
  else if n < 65536 then [224 + n / 4096, 128 + n / 64 % 64, 128 + n % 64]
  else [240 + n / 262144, 128 + n / 4096 % 64, 128 + n / 64 % 64, 128 + n % 64]

def utf8EncodeChars : List Char → List Nat
  | [] => []
  | c :: cs => utf8EncodeNat c.toNat ++ utf8EncodeChars cs

def encodeURIComponent (s : String) : String :=
  String.mk (percentEncodeBytes (utf8EncodeChars s.data))

/- api.ts lines 232-234. -/
def getDownloadFileUrl (filename : String) : String :=
  API_BASE_URL ++ "/api/downloads/files/" ++ encodeURIComponent filename

/- The inverse direction: percent-decoding back to bytes and UTF-8 decoding
   back to characters, as a server receiving the path segment would. -/

def hexVal (c : Char) : Option Nat :=
  if 48 ≤ c.toNat ∧ c.toNat ≤ 57 then some (c.toNat - 48)
  else if 65 ≤ c.toNat ∧ c.toNat ≤ 70 then some (c.toNat - 55)
  else none

def percentDecode : List Char → Option (List Nat)
  | [] => some []
  | c :: cs =>
    if c = '%' then
      match cs with
      | h1 :: h2 :: rest =>
        match hexVal h1, hexVal h2 with
        | some a, some b => (percentDecode rest).map (fun t => (16 * a + b) :: t)
        | _, _ => none
      | _ => none
    else if isUnreservedByte c.toNat then
      (percentDecode cs).map (fun t => c.toNat :: t)
    else none

def isContinuation (b : Nat) : Bool := 128 ≤ b && b < 192

def utf8DecodeBytes (l : List Nat) : Option (List Char) :=
  match l with
  | [] => some []
  | b :: bs =>
    if b < 128 then (utf8DecodeBytes bs).map (fun t => Char.ofNat b :: t)
    else if b < 192 then none
    else if b < 224 then
      match bs.head? with
      | some x =>
        if isContinuation x then
          (utf8DecodeBytes (bs.drop 1)).map (fun t =>
            Char.ofNat ((b - 192) * 64 + (x - 128)) :: t)
        else none
      | none => none
    else if b < 240 then
      match bs.head?, (bs.drop 1).head? with
      | some x, some y =>
        if isContinuation x && isContinuation y then
          (utf8DecodeBytes (bs.drop 2)).map (fun t =>
            Char.ofNat ((b - 224) * 4096 + (x - 128) * 64 + (y - 128)) :: t)
        else none
      | _, _ => none
    else if b < 248 then
      match bs.head?, (bs.drop 1).head?, (bs.drop 2).head? with
      | some x, some y, some z =>
        if isContinuation x && (isContinuation y && isContinuation z) then
          (utf8DecodeBytes (bs.drop 3)).map (fun t =>
            Char.ofNat
              ((b - 240) * 262144 + (x - 128) * 4096 + (y - 128) * 64 + (z - 128)) :: t)
        else none
      | _, _, _ => none
    else none
termination_by l.length
decreasing_by
  all_goals simp [List.length_drop]
  all_goals omega

def decodeURIComponentOpt (s : String) : Option String :=
  match percentDecode s.data with
  | some bs =>
    match utf8DecodeBytes bs with
    | some cs => some (String.mk cs)
    | none => none
  | none => none

/- The final path segment of a URL: the part after the last slash. -/
def finalPathSegment (s : String) : String :=
  String.mk ((s.data.reverse.takeWhile (fun c => c != '/')).reverse)

/- Claim theorems C2, C3, C8. -/

/-- C2: for every catalog, sortedVideoFormats is ordered so that any two
adjacent variants either strictly decrease in height (the quality metric) or
have equal height and non-increasing bitrate. -/
theorem sortedVideoFormats_sorted_by_quality_then_bitrate (vi : VideoInfo) :
    (sortedVideoFormats vi).Chain'
      (fun a b => vHeight b < vHeight a ∨ (vHeight a = vHeight b ∧ vTbr b ≤ vTbr a)) := by
  have h := List.sorted_insertionSort (lexDesc vHeight vTbr)
    (vi.formats.video_formats.filter videoHasDims)
  exact List.Pairwise.chain' h

/-- C3: for every catalog and every language, the language group of audio
variants is ordered by non-increasing abr bitrate between adjacent members. -/
theorem groupedAudioFormats_sorted_by_bitrate (vi : VideoInfo) (language : String) :
    (groupedAudioFormatsByLanguage vi language).Chain'
      (fun a b => aAbr b ≤ aAbr a) := by
  have h := List.sorted_insertionSort (descBy aAbr)
    (vi.formats.audio_formats.filter (fun f => langKey f == language))
  exact List.Pairwise.chain' h

/-- C8: every video variant surviving to the sorted list has a present, nonzero
height and width; every audio variant surviving has a present codec that is
neither "none" nor empty; and the presentation groups only draw from these
filtered lists, so no variant failing the tests appears in any group. -/
theorem presented_formats_have_dims_and_codecs (vi : VideoInfo) :
    (∀ f ∈ sortedVideoFormats vi,
        (∃ h, f.height = some h ∧ h ≠ 0) ∧ (∃ w, f.width = some w ∧ w ≠ 0)) ∧
    (∀ f ∈ sortedAudioFormats vi,
        ∃ c, f.acodec = some c ∧ c ≠ "none" ∧ c ≠ "") ∧
    (∀ q f, f ∈ groupedVideoFormats vi q →
        (∃ h, f.height = some h ∧ h ≠ 0) ∧ (∃ w, f.width = some w ∧ w ≠ 0)) ∧
    (∀ l f, f ∈ groupedAudioFormats vi l →
        ∃ c, f.acodec = some c ∧ c ≠ "none" ∧ c ≠ "") := by
  have hv : ∀ f ∈ sortedVideoFormats vi,
      (∃ h, f.height = some h ∧ h ≠ 0) ∧ (∃ w, f.width = some w ∧ w ≠ 0) := by
    intro f hf
    rw [sortedVideoFormats, List.mem_insertionSort] at hf
    have hp := (List.mem_filter.mp hf).2
    simp only [videoHasDims, vHeight, vWidth, Bool.and_eq_true, bne_iff_ne, ne_eq] at hp
    obtain ⟨h1, h2⟩ := hp
    constructor
    · cases hh : f.height with
      | none => rw [hh] at h1; simp at h1
      | some h => exact ⟨h, rfl, by rw [hh] at h1; simpa using h1⟩
    · cases hw : f.width with
      | none => rw [hw] at h2; simp at h2
      | some w => exact ⟨w, rfl, by rw [hw] at h2; simpa using h2⟩
  have ha : ∀ f ∈ sortedAudioFormats vi,
      ∃ c, f.acodec = some c ∧ c ≠ "none" ∧ c ≠ "" := by
    intro f hf
    rw [sortedAudioFormats, List.mem_insertionSort] at hf
    have hp := (List.mem_filter.mp hf).2
    cases hc : f.acodec with
    | none => rw [audioHasCodec, hc] at hp; simp at hp
    | some c =>
      rw [audioHasCodec, hc] at hp
      simp only [Bool.and_eq_true, bne_iff_ne, ne_eq] at hp
      exact ⟨c, rfl, hp.2, hp.1⟩
  refine ⟨hv, ha, ?_, ?_⟩
  · intro q f hf
    exact hv f (List.mem_filter.mp hf).1
  · intro l f hf
    exact ha f (List.mem_filter.mp hf).1

/-- Witness for C8 at a one-video one-audio catalog. -/
theorem presented_formats_have_dims_and_codecs_witness :
    ((∃ h, c8vf.height = some h ∧ h ≠ 0) ∧ (∃ w, c8vf.width = some w ∧ w ≠ 0)) ∧
    (∃ c, c8af.acodec = some c ∧ c ≠ "none" ∧ c ≠ "") :=
  ⟨(presented_formats_have_dims_and_codecs c8vi).1 c8vf (by decide),
   (presented_formats_have_dims_and_codecs c8vi).2.1 c8af (by decide)⟩

/-- C10: formatFileSize yields "Unknown" on an absent or zero byte count; for
1 <= b < 1024 ^ 4 the unit index is a valid index into the four-element unit
list and the result ends in that unit; for b >= 1024 ^ 4 the index falls
outside the list. -/
theorem formatFileSize_unit_index :
    formatFileSize none = "Unknown" ∧
    formatFileSize (some 0) = "Unknown" ∧
    (∀ b, 1 ≤ b → b < 1024 ^ 4 →
      Nat.log 1024 b < 4 ∧
      ∃ u, sizes.get? (Nat.log 1024 b) = some u ∧ u ∈ sizes ∧
        formatFileSize (some b) =
          toFixed1 ((b : Rat) / (1024 : Rat) ^ Nat.log 1024 b) ++ " " ++ u) ∧
    (∀ b, 1024 ^ 4 ≤ b →
      4 ≤ Nat.log 1024 b ∧ sizes.get? (Nat.log 1024 b) = none) := by
  refine ⟨rfl, rfl, ?_, ?_⟩
  · intro b hb1 hblt
    have hb0 : b ≠ 0 := by omega
    have hlog : Nat.log 1024 b < 4 := Nat.log_lt_of_lt_pow hb0 hblt
    have hlen : Nat.log 1024 b < sizes.length := by simpa [sizes] using hlog
    refine ⟨hlog, sizes.get ⟨Nat.log 1024 b, hlen⟩, List.get?_eq_get hlen,
      List.get_mem _ _ _, ?_⟩
    simp only [formatFileSize, if_neg hb0, List.get?_eq_get hlen, Option.getD_some]
  · intro b hge
    have hb0 : b ≠ 0 := (lt_of_lt_of_le (by positivity) hge).ne'
    have hlog : 4 ≤ Nat.log 1024 b :=
      (Nat.pow_le_iff_le_log (by norm_num) hb0).mp hge
    refine ⟨hlog, List.get?_eq_none.mpr ?_⟩
    simpa [sizes] using hlog

/-- C4: a task created by the client direct-download flow passes through
exactly the statuses preparing, downloading, completed — a subsequence of
preparing, downloading, (completed|error) — and a poller never mutates a task
whose status is terminal. -/
theorem direct_download_status_monotonic (downloadId title : String)
    (prev : List PageTask) :
    directDownloadStatusTrace downloadId title prev =
      ["preparing", "downloading", "completed"] ∧
    List.Sublist (directDownloadStatusTrace downloadId title prev)
      ["preparing", "downloading", "completed"] ∧
    (∀ task s fetched, terminalStatus s.currentTask.status = true →
      pollStatus task s fetched = (s, false)) := by
  have htrace : directDownloadStatusTrace downloadId title prev =
      ["preparing", "downloading", "completed"] := by
    simp [directDownloadStatusTrace, directDownloadSnapshots, markTasks,
      createdDirectTask, headStatus]
  refine ⟨htrace, ?_, ?_⟩
  · rw [htrace]
  · intro task s fetched hterm
    simp [pollStatus, hterm]

/-- Witness for C4 at a concrete task list and a concrete terminal poll
state. -/
theorem direct_download_status_monotonic_witness :
    directDownloadStatusTrace "d1" "Title" [] =
      ["preparing", "downloading", "completed"] ∧
    pollStatus { task_id := some "d1", status := "completed" }
      { currentTask := { status := "completed" }, isPolling := true,
        downloadFiles := [] }
      (Except.ok { status := "downloading" }) =
      ({ currentTask := { status := "completed" }, isPolling := true,
         downloadFiles := [] }, false) :=
  ⟨(direct_download_status_monotonic "d1" "Title" []).1,
   (direct_download_status_monotonic "d1" "Title" []).2.2 _ _ _ (by decide)⟩

/-- C5: once the tracked task is terminal, every poll tick performs no fetch
and leaves the poll state unchanged, and iterating any sequence of ticks still
leaves it unchanged. -/
theorem pollStatus_terminal_idempotent (task : DPTask) (s : PollState)
    (hterm : s.currentTask.status = "completed" ∨ s.currentTask.status = "error") :
    (∀ fetched, pollStatus task s fetched = (s, false)) ∧
    (∀ fetches : List (Except String DPTask),
      fetches.foldl (fun st f => (pollStatus task st f).1) s = s) := by
  have hb : terminalStatus s.currentTask.status = true := by
    rcases hterm with h | h <;> simp [terminalStatus, h]
  have hstep : ∀ fetched, pollStatus task s fetched = (s, false) := by
    intro fetched
    simp [pollStatus, hb]
  refine ⟨hstep, ?_⟩
  intro fetches
  induction fetches with
  | nil => rfl
  | cons f fs ih => rw [List.foldl_cons, hstep f, ih]

/-- Witness for C5 at a concrete terminal poll state and two poll ticks. -/
theorem pollStatus_terminal_idempotent_witness :
    (pollStatus { task_id := some "t9", status := "error" }
      { currentTask := { status := "error", error := some "boom" },
        isPolling := true, downloadFiles := ["a.mp4"] }
      (Except.ok { status := "downloading" }) =
      ({ currentTask := { status := "error", error := some "boom" },
         isPolling := true, downloadFiles := ["a.mp4"] }, false)) ∧
    ([Except.ok { status := "downloading" },
      Except.error "net"].foldl
        (fun st f => (pollStatus { task_id := some "t9", status := "error" } st f).1)
        { currentTask := { status := "error", error := some "boom" },
          isPolling := true, downloadFiles := ["a.mp4"] } =
      { currentTask := { status := "error", error := some "boom" },
        isPolling := true, downloadFiles := ["a.mp4"] }) :=
  ⟨(pollStatus_terminal_idempotent _ _ (Or.inr rfl)).1 _,
   (pollStatus_terminal_idempotent _ _ (Or.inr rfl)).2 _⟩

/-- C6 counterexample: a 429 response whose body declares type bot_detection
is raised as the bot-detection message, which is not the throttle message
carrying the retry-after hint in minutes. -/
theorem throttled_bot_detection_message_lacks_minutes :
    getVideoInfo
      { status := 429, body := { type := some "bot_detection" } }
      c8vi =
      Except.error "YouTube bot detection triggered. Cookie authentication is required. Please check the deployment guide for cookie setup instructions." ∧
    "YouTube bot detection triggered. Cookie authentication is required. Please check the deployment guide for cookie setup instructions." ≠
      throttleMessage none := by
  constructor
  · rfl
  · decide

/-- C6 amended: every 429 response makes getVideoInfo and startDirectDownload
raise an error; when the body's error type is none of the specially handled
kinds, the message is the throttle message carrying
ceil((retry_after || 300) / 60) minutes, and an absent retry_after defaults to
300 seconds, i.e. 5 minutes. -/
theorem throttled_responses_raise_error_with_minutes (resp : ApiResponse)
    (pv : VideoInfo) (pd : DirectPrepResponse) (h429 : resp.status = 429) :
    (∃ m, getVideoInfo resp pv = Except.error m) ∧
    (∃ m, apiStartDirectDownload resp pd = Except.error m) ∧
    (resp.body.type ≠ some "extraction_failure" →
     resp.body.type ≠ some "bot_detection" →
     resp.body.type ≠ some "video_unavailable" →
     resp.body.type ≠ some "age_restricted" →
      getVideoInfo resp pv =
        Except.error (throttleMessage resp.body.retry_after) ∧
      apiStartDirectDownload resp pd =
        Except.error (throttleMessage resp.body.retry_after)) ∧
    retryMinutes none = 5 := by
  have hok : responseOk resp.status = false := by
    simp [responseOk, h429]
  refine ⟨⟨getVideoInfoErrorMessage resp.status resp.body,
      by simp [getVideoInfo, hok]⟩,
    ⟨startDirectDownloadErrorMessage resp.status resp.body,
      by simp [apiStartDirectDownload, hok]⟩, ?_, rfl⟩
  intro h1 h2 h3 h4
  constructor
  · simp [getVideoInfo, responseOk, getVideoInfoErrorMessage, h1, h2, h3, h4, h429]
  · simp [apiStartDirectDownload, responseOk, startDirectDownloadErrorMessage, h1, h2, h429]

/-- Witness for C6 at a concrete 429 response with retry_after 90 seconds. -/
theorem throttled_responses_raise_error_with_minutes_witness :
    (∃ m, getVideoInfo
      { status := 429, body := { retry_after := some 90 } } c8vi =
        Except.error m) ∧
    (∃ m, apiStartDirectDownload
      { status := 429, body := { retry_after := some 90 } }
      { download_id := "d", title := "t", safe_title := "t" } =
        Except.error m) ∧
    ((some (α := String) "x" ≠ some "extraction_failure" →
      some (α := String) "x" ≠ some "bot_detection" →
      some (α := String) "x" ≠ some "video_unavailable" →
      some (α := String) "x" ≠ some "age_restricted" → True) → True) ∧
    retryMinutes none = 5 := by
  have h := throttled_responses_raise_error_with_minutes
    { status := 429, body := { retry_after := some 90 } }
    c8vi { download_id := "d", title := "t", safe_title := "t" } rfl
  exact ⟨h.1, h.2.1, fun _ => trivial, h.2.2.2⟩

/-- C7: every preparation request posts {url, quality} to /api/download-direct,
with quality best[height<=h] exactly when a video format of nonzero height h is
selected and auto otherwise, and the client builds the streaming link from the
response download_id and its filename from safe_title and file_extension. -/
theorem download_direct_request_shape (url : String) (sel : Option VideoFormat)
    (d : DirectPrepResponse) :
    (homeStartDirectDownloadRequest url sel).1 =
      API_BASE_URL ++ "/api/download-direct" ∧
    (homeStartDirectDownloadRequest url sel).2.url = url ∧
    (∀ f h, sel = some f → f.height = some h → h ≠ 0 →
      (homeStartDirectDownloadRequest url sel).2.quality =
        "best[height<=" ++ toString h ++ "]") ∧
    (sel = none → (homeStartDirectDownloadRequest url sel).2.quality = "auto") ∧
    homeDirectLinkHref d = API_BASE_URL ++ "/api/download-stream/" ++ d.download_id ∧
    homeDirectLinkFilename d = d.safe_title ++ ".mp4" ∧
    (∀ ext selV selA, d.file_extension = some ext → ext ≠ "" →
      customLinkFilename d selV selA = d.safe_title ++ ext) := by
  refine ⟨rfl, rfl, ?_, ?_, rfl, rfl, ?_⟩
  · intro f h hsel hh hne
    subst hsel
    simp [homeStartDirectDownloadRequest, apiStartDirectDownloadRequest,
      homeDirectQuality, vHeight, hh, hne]
  · intro hsel
    subst hsel
    rfl
  · intro ext selV selA hext hne
    simp [customLinkFilename, customLinkExtension, jsOrStr, hext, hne]

/-- Witness for C7 at a concrete 720p selection and a concrete response. -/
theorem download_direct_request_shape_witness :
    (homeStartDirectDownloadRequest "https://youtu.be/x" (some c7vf)).2.quality =
      "best[height<=" ++ toString 720 ++ "]" ∧
    (homeStartDirectDownloadRequest "https://youtu.be/x" none).2.quality = "auto" ∧
    customLinkFilename
      { download_id := "d7", title := "T", safe_title := "T_safe",
        file_extension := some ".webm" } none (some c8af) =
      "T_safe" ++ ".webm" :=
  ⟨((download_direct_request_shape "https://youtu.be/x" (some c7vf)
      { download_id := "d7", title := "T", safe_title := "T_safe" }).2.2.1)
      c7vf 720 rfl rfl (by decide),
   ((download_direct_request_shape "https://youtu.be/x" none
      { download_id := "d7", title := "T", safe_title := "T_safe" }).2.2.2.1) rfl,
   ((download_direct_request_shape "https://youtu.be/x" none
      { download_id := "d7", title := "T", safe_title := "T_safe",
        file_extension := some ".webm" }).2.2.2.2.2.2)
      ".webm" none (some c8af) rfl (by decide)⟩

/-- C1: selecting a video and an audio variant of a previously inspected
catalog sends both identifiers to the download-direct preparation endpoint,
and the worker run completes with exactly one output file, a single container
holding both streams. -/
theorem custom_format_download_muxes_both_streams (vi : VideoInfo)
    (url : String) (vf : VideoFormat) (af : AudioFormat)
    (hurl : jsTrim url ≠ "")
    (_hv : vf ∈ vi.formats.video_formats)
    (_ha : af ∈ vi.formats.audio_formats)
    (hne : vf.format_id ≠ af.format_id) :
    ∃ req : String × CustomDownloadRequest,
      startCustomFormatDownload url (some vf) (some af) = Except.ok req ∧
      req.1 = API_BASE_URL ++ "/api/download-direct" ∧
      req.2.url = url ∧
      req.2.video_format_id = some vf.format_id ∧
      req.2.audio_format_id = some af.format_id ∧
      (runWorker req.2.video_format_id req.2.audio_format_id).status = "completed" ∧
      (runWorker req.2.video_format_id req.2.audio_format_id).files =
        [{ streams := [vf.format_id, af.format_id] }] := by
  refine ⟨apiStartCustomFormatDownloadRequest url
    (some vf.format_id) (some af.format_id), ?_, rfl, rfl, rfl, rfl, ?_, ?_⟩
  · simp [startCustomFormatDownload, hurl, apiStartCustomFormatDownloadRequest,
      Option.map]
  · simp [runWorker, apiStartCustomFormatDownloadRequest, hne]
  · simp [runWorker, apiStartCustomFormatDownloadRequest, hne]

/-- Witness for C1 at the concrete catalog with one 1080p video variant and
one audio variant. -/
theorem custom_format_download_muxes_both_streams_witness :
    ∃ req : String × CustomDownloadRequest,
      startCustomFormatDownload "https://youtu.be/w" (some c8vf) (some c8af) =
        Except.ok req ∧
      req.1 = API_BASE_URL ++ "/api/download-direct" ∧
      req.2.url = "https://youtu.be/w" ∧
      req.2.video_format_id = some c8vf.format_id ∧
      req.2.audio_format_id = some c8af.format_id ∧
      (runWorker req.2.video_format_id req.2.audio_format_id).status = "completed" ∧
      (runWorker req.2.video_format_id req.2.audio_format_id).files =
        [{ streams := [c8vf.format_id, c8af.format_id] }] :=
  custom_format_download_muxes_both_streams c8vi "https://youtu.be/w" c8vf c8af
    (by decide) (by decide) (by decide) (by decide)

/- Helper lemmas for the percent-encoding development. -/

set_option maxRecDepth 4096 in
theorem unreserved_spec : ∀ b, b < 256 → isUnreservedByte b = true →
    (Char.ofNat b).toNat = b ∧ Char.ofNat b ≠ '%' ∧
    isUnreservedByte (Char.ofNat b).toNat = true := by decide

theorem hexVal_hexDigit : ∀ m, m < 16 → hexVal (hexDigit m) = some m := by decide

set_option maxRecDepth 4096 in
theorem percentEncodeByte_chars : ∀ b, b < 256 →
    ∀ c ∈ percentEncodeByte b,
      c ≠ '/' ∧ c ≠ '?' ∧ c ≠ '#' ∧ c ≠ ' ' := by decide

theorem percentDecode_encodeBytes (bs : List Nat) (h : ∀ b ∈ bs, b < 256) :
    percentDecode (percentEncodeBytes bs) = some bs := by
  induction bs with
  | nil => rfl
  | cons b bs ih =>
    have hb : b < 256 := h b (List.mem_cons_self b bs)
    have ih' := ih (fun x hx => h x (List.mem_cons_of_mem b hx))
    by_cases hu : isUnreservedByte b = true
    · obtain ⟨e1, e2, e3⟩ := unreserved_spec b hb hu
      simp only [percentEncodeBytes, percentEncodeByte, if_pos hu,
        List.cons_append, List.nil_append]
      rw [percentDecode.eq_def]
      simp [e1, e2, e3, hu, ih']
    · have h16a : b / 16 < 16 := by omega
      have h16b : b % 16 < 16 := by omega
      have harith : 16 * (b / 16) + b % 16 = b := by omega
      simp only [percentEncodeBytes, percentEncodeByte, if_neg hu,
        List.cons_append, List.nil_append]
      rw [percentDecode.eq_def]
      simp [hexVal_hexDigit _ h16a, hexVal_hexDigit _ h16b, ih', harith]

theorem utf8EncodeNat_lt (n : Nat) (h : n < 1114112) :
    ∀ b ∈ utf8EncodeNat n, b < 256 := by
  intro b hb
  unfold utf8EncodeNat at hb
  by_cases h1 : n < 128
  · simp only [if_pos h1, List.mem_singleton] at hb
    omega
  · by_cases h2 : n < 2048
    · simp only [if_neg h1, if_pos h2, List.mem_cons, List.not_mem_nil,
        or_false] at hb
      rcases hb with hb | hb <;> omega
    · by_cases h3 : n < 65536
      · simp only [if_neg h1, if_neg h2, if_pos h3, List.mem_cons,
          List.not_mem_nil, or_false] at hb
        rcases hb with hb | hb | hb <;> omega
      · simp only [if_neg h1, if_neg h2, if_neg h3, List.mem_cons,
          List.not_mem_nil, or_false] at hb
        rcases hb with hb | hb | hb | hb <;> omega

theorem utf8EncodeChars_lt (cs : List Char) :
    ∀ b ∈ utf8EncodeChars cs, b < 256 := by
  induction cs with
  | nil => simp [utf8EncodeChars]
  | cons c cs ih =>
    intro b hb
    rw [utf8EncodeChars] at hb
    rcases List.mem_append.mp hb with h | h
    · have hvalid : Nat.isValidChar c.toNat := c.valid
      have hlt : c.toNat < 1114112 := by
        rcases hvalid with h' | ⟨_, h'⟩ <;> omega
      exact utf8EncodeNat_lt _ hlt b h
    · exact ih b h

theorem utf8Decode_encodeChars (cs : List Char) :
    utf8DecodeBytes (utf8EncodeChars cs) = some cs := by
  induction cs with
  | nil =>
    rw [utf8DecodeBytes.eq_def]
    simp [utf8EncodeChars]
  | cons c cs ih =>
    have hvalid : Nat.isValidChar c.toNat := c.valid
    have hofNat := Char.ofNat_toNat c
    have hlt : c.toNat < 1114112 := by
      rcases hvalid with h' | ⟨_, h'⟩ <;> omega
    rw [utf8EncodeChars]
    by_cases h1 : c.toNat < 128
    · rw [utf8EncodeNat, if_pos h1]
      simp only [List.cons_append, List.nil_append]
      rw [utf8DecodeBytes.eq_def]
      simp [h1, ih, hofNat]
    · by_cases h2 : c.toNat < 2048
      · have d1 : ¬ (192 + c.toNat / 64 < 128) := by omega
        have d2 : ¬ (192 + c.toNat / 64 < 192) := by omega
        have d3 : 192 + c.toNat / 64 < 224 := by omega
        have dx : isContinuation (128 + c.toNat % 64) = true := by
          simp only [isContinuation, Bool.and_eq_true, decide_eq_true_eq]
          omega
        have harith : c.toNat / 64 * 64 + c.toNat % 64 = c.toNat := by omega
        rw [utf8EncodeNat, if_neg h1, if_pos h2]
        simp only [List.cons_append, List.nil_append]
        rw [utf8DecodeBytes.eq_def]
        simp [d1, d2, d3, dx, harith, ih, hofNat]
      · by_cases h3 : c.toNat < 65536
        · have d1 : ¬ (224 + c.toNat / 4096 < 128) := by omega
          have d2 : ¬ (224 + c.toNat / 4096 < 192) := by omega
          have d3 : ¬ (224 + c.toNat / 4096 < 224) := by omega
          have d4 : 224 + c.toNat / 4096 < 240 := by omega
          have dx : isContinuation (128 + c.toNat / 64 % 64) = true := by
            simp only [isContinuation, Bool.and_eq_true, decide_eq_true_eq]
            omega
          have dy : isContinuation (128 + c.toNat % 64) = true := by
            simp only [isContinuation, Bool.and_eq_true, decide_eq_true_eq]
            omega
          have harith :
              c.toNat / 4096 * 4096 + c.toNat / 64 % 64 * 64 + c.toNat % 64 =
                c.toNat := by omega
          rw [utf8EncodeNat, if_neg h1, if_neg h2, if_pos h3]
          simp only [List.cons_append, List.nil_append]
          rw [utf8DecodeBytes.eq_def]
          simp [d1, d2, d3, d4, dx, dy, harith, ih, hofNat]
        · have d1 : ¬ (240 + c.toNat / 262144 < 128) := by omega
          have d2 : ¬ (240 + c.toNat / 262144 < 192) := by omega
          have d3 : ¬ (240 + c.toNat / 262144 < 224) := by omega
          have d4 : ¬ (240 + c.toNat / 262144 < 240) := by omega
          have d5 : 240 + c.toNat / 262144 < 248 := by omega
          have dx : isContinuation (128 + c.toNat / 4096 % 64) = true := by
            simp only [isContinuation, Bool.and_eq_true, decide_eq_true_eq]
            omega
          have dy : isContinuation (128 + c.toNat / 64 % 64) = true := by
            simp only [isContinuation, Bool.and_eq_true, decide_eq_true_eq]
            omega
          have dz : isContinuation (128 + c.toNat % 64) = true := by
            simp only [isContinuation, Bool.and_eq_true, decide_eq_true_eq]
            omega
          have harith :
              c.toNat / 262144 * 262144 + c.toNat / 4096 % 64 * 4096 +
                c.toNat / 64 % 64 * 64 + c.toNat % 64 = c.toNat := by omega
          rw [utf8EncodeNat, if_neg h1, if_neg h2, if_neg h3]
          simp only [List.cons_append, List.nil_append]
          rw [utf8DecodeBytes.eq_def]
          simp [d1, d2, d3, d4, d5, dx, dy, dz, harith, ih, hofNat]

theorem percentEncodeBytes_chars (bs : List Nat) (h : ∀ b ∈ bs, b < 256) :
    ∀ c ∈ percentEncodeBytes bs, c ≠ '/' ∧ c ≠ '?' ∧ c ≠ '#' ∧ c ≠ ' ' := by
  induction bs with
  | nil => simp [percentEncodeBytes]
  | cons b bs ih =>
    intro c hc
    rw [percentEncodeBytes] at hc
    rcases List.mem_append.mp hc with h1 | h1
    · exact percentEncodeByte_chars b (h b (List.mem_cons_self b bs)) c h1
    · exact ih (fun x hx => h x (List.mem_cons_of_mem b hx)) c h1

theorem string_mk_data (s : String) : String.mk s.data = s := by
  cases s
  rfl

theorem decode_encodeURIComponent (s : String) :
    decodeURIComponentOpt (encodeURIComponent s) = some s := by
  unfold decodeURIComponentOpt encodeURIComponent
  rw [show (String.mk (percentEncodeBytes (utf8EncodeChars s.data))).data =
      percentEncodeBytes (utf8EncodeChars s.data) from rfl]
  rw [percentDecode_encodeBytes _ (utf8EncodeChars_lt s.data)]
  simp only [utf8Decode_encodeChars, string_mk_data]

theorem takeWhile_append_cons {α : Type} (p : α → Bool) (l1 : List α) (a : α)
    (l2 : List α) (h1 : ∀ x ∈ l1, p x = true) (ha : p a = false) :
    (l1 ++ a :: l2).takeWhile p = l1 := by
  induction l1 with
  | nil => simp [List.takeWhile_cons, ha]
  | cons x xs ih =>
    have hx := h1 x (List.mem_cons_self x xs)
    simp [List.takeWhile_cons, hx,
      ih (fun y hy => h1 y (List.mem_cons_of_mem x hy))]

theorem getDownloadFileUrl_data (filename : String) :
    (getDownloadFileUrl filename).data =
      (API_BASE_URL ++ "/api/downloads/files/").data ++
        (encodeURIComponent filename).data := by
  rw [getDownloadFileUrl, String.data_append]

theorem encodeURIComponent_chars (filename : String) :
    ∀ c ∈ (encodeURIComponent filename).data,
      c ≠ '/' ∧ c ≠ '?' ∧ c ≠ '#' ∧ c ≠ ' ' := by
  intro c hc
  exact percentEncodeBytes_chars _ (utf8EncodeChars_lt filename.data) c hc

theorem finalPathSegment_getDownloadFileUrl (filename : String) :
    finalPathSegment (getDownloadFileUrl filename) =
      encodeURIComponent filename := by
  obtain ⟨t, ht⟩ : ∃ t,
      (API_BASE_URL ++ "/api/downloads/files/").data.reverse = '/' :: t :=
    ⟨_, rfl⟩
  unfold finalPathSegment
  rw [getDownloadFileUrl_data, List.reverse_append, ht]
  rw [takeWhile_append_cons _ _ _ _ ?pall ?pslash]
  case pall =>
    intro x hx
    have hmem := List.mem_reverse.mp hx
    have := (encodeURIComponent_chars filename x hmem).1
    simpa using this
  case pslash => rfl
  rw [List.reverse_reverse, string_mk_data]

/-- C9: getDownloadFileUrl appends the percent-encoding of the filename to the
fixed files path; decoding the final path segment of the URL recovers the
filename exactly; the encoded segment never contains a slash, question mark,
hash or space; and the URL mapping is injective. -/
theorem getDownloadFileUrl_roundtrip (filename : String) :
    getDownloadFileUrl filename =
      API_BASE_URL ++ "/api/downloads/files/" ++ encodeURIComponent filename ∧
    decodeURIComponentOpt (finalPathSegment (getDownloadFileUrl filename)) =
      some filename ∧
    (∀ c ∈ (encodeURIComponent filename).data,
      c ≠ '/' ∧ c ≠ '?' ∧ c ≠ '#' ∧ c ≠ ' ') ∧
    (∀ g : String, getDownloadFileUrl filename = getDownloadFileUrl g →
      filename = g) := by
  refine ⟨rfl, ?_, encodeURIComponent_chars filename, ?_⟩
  · rw [finalPathSegment_getDownloadFileUrl, decode_encodeURIComponent]
  · intro g hg
    have hdata := congrArg String.data hg
    rw [getDownloadFileUrl_data, getDownloadFileUrl_data] at hdata
    have hde : (encodeURIComponent filename).data =
        (encodeURIComponent g).data := List.append_cancel_left hdata
    have hdec : decodeURIComponentOpt (encodeURIComponent filename) =
        decodeURIComponentOpt (encodeURIComponent g) := by
      unfold decodeURIComponentOpt
      rw [hde]
    have h3 : (some filename : Option String) = some g := by
      rw [← decode_encodeURIComponent filename, hdec,
        decode_encodeURIComponent g]
    exact Option.some.inj h3

/-- Witness for C9 at a filename containing a slash, a question mark, a hash
and a space. -/
theorem getDownloadFileUrl_roundtrip_witness :
    decodeURIComponentOpt
      (finalPathSegment (getDownloadFileUrl "a/b ?#.mp4")) =
      some "a/b ?#.mp4" ∧
    ("a/b ?#.mp4" : String) = "a/b ?#.mp4" :=
  ⟨(getDownloadFileUrl_roundtrip "a/b ?#.mp4").2.1,
   (getDownloadFileUrl_roundtrip "a/b ?#.mp4").2.2.2 "a/b ?#.mp4" rfl⟩

/-- Witness for C10 at the concrete byte counts 5 and 1024 ^ 4. -/
theorem formatFileSize_unit_index_witness :
    (Nat.log 1024 5 < 4 ∧
      ∃ u, sizes.get? (Nat.log 1024 5) = some u ∧ u ∈ sizes ∧
        formatFileSize (some 5) =
          toFixed1 ((5 : Rat) / (1024 : Rat) ^ Nat.log 1024 5) ++ " " ++ u) ∧
    (4 ≤ Nat.log 1024 (1024 ^ 4) ∧ sizes.get? (Nat.log 1024 (1024 ^ 4)) = none) :=
  ⟨formatFileSize_unit_index.2.2.1 5 (by norm_num) (by norm_num),
   formatFileSize_unit_index.2.2.2 (1024 ^ 4) le_rfl⟩
